import Mathlib

/-!
Verification of the work-cli agent orchestration core.

This file gives a shallow embedding of the repository's agent pool registry
(`src/agents/agent-store.ts`), the dispatch controller (`src/agents/dispatch.ts`),
the retry supervisor (`src/ui/hooks/use-agents.ts`), the best-effort tracker
synchronizer (`src/agents/card-mover.ts`, `src/ui/hooks/use-agents.ts`),
the webhook dispatcher (`src/webhooks/webhook-dispatcher.ts`) and the GitHub
webhook handler (`src/webhooks/handlers/github-handler.ts`), together with
theorems checking the specification's claims against these definitions.

Modelling conventions:
- TypeScript optional fields become `Option`; JavaScript truthiness of a
  string (`!s` is true for `undefined` and `""`) and of a number (`0` is
  falsy) is translated explicitly where the source relies on it.
- The wall clock (`new Date().toISOString()`) and process identifiers from
  `spawn` are passed in as explicit parameters.
- Process liveness (`process.kill(pid, 0)`) is an oracle parameter
  `alive : Nat → Bool`.
- File persistence is modelled by the store value itself; `load` merges the
  persisted record onto defaults exactly as the source spread does.
-/

/-- Agent identity, from `AGENT_NAMES` in `src/model/agent.ts`. -/
inductive AgentName where
  | ember
  | flow
  | tempest
  | terra
deriving DecidableEq, Repr

/-- Agent lifecycle status, from `AgentStatus` in `src/model/agent.ts`. -/
inductive AgentStatus where
  | idle
  | provisioning
  | working
  | done
  | error
deriving DecidableEq, Repr

/-- One agent record, from the `Agent` interface in `src/model/agent.ts`
(the variant used by `agent-store.ts`, which also writes `workItemSource`). -/
structure Agent where
  name : AgentName
  status : AgentStatus
  workItemId : Option String := none
  workItemTitle : Option String := none
  workItemSource : Option String := none
  branch : Option String := none
  worktreePath : Option String := none
  pid : Option Nat := none
  startedAt : Option String := none
  error : Option String := none
  retryCount : Option Nat := none
deriving DecidableEq, Repr

/-- The fixed pool order, from `AGENT_NAMES` in `src/model/agent.ts`. -/
def AGENT_NAMES : List AgentName :=
  [AgentName.ember, AgentName.flow, AgentName.tempest, AgentName.terra]

/-- Source `defaultAgent` from `agent-store.ts`: a fresh idle record. -/
def defaultAgent (n : AgentName) : Agent :=
  { name := n, status := AgentStatus.idle }

/-- The persisted store value `{ agents: Record<AgentName, Agent> }`,
one field per fixed pool member as in `defaultData`. -/
structure StoreData where
  ember : Agent
  flow : Agent
  tempest : Agent
  terra : Agent
deriving DecidableEq, Repr

/-- Read one agent record (`this.data.agents[name]`). -/
def StoreData.get (d : StoreData) : AgentName → Agent
  | AgentName.ember => d.ember
  | AgentName.flow => d.flow
  | AgentName.tempest => d.tempest
  | AgentName.terra => d.terra

/-- Replace one agent record (`this.data.agents[name] = ...`). -/
def StoreData.set (d : StoreData) (n : AgentName) (a : Agent) : StoreData :=
  match n with
  | AgentName.ember => { d with ember := a }
  | AgentName.flow => { d with flow := a }
  | AgentName.tempest => { d with tempest := a }
  | AgentName.terra => { d with terra := a }

/-- Source `defaultData` from `agent-store.ts`: every pool member idle. -/
def defaultData : StoreData :=
  { ember := defaultAgent AgentName.ember
    flow := defaultAgent AgentName.flow
    tempest := defaultAgent AgentName.tempest
    terra := defaultAgent AgentName.terra }

theorem StoreData.get_set_self (d : StoreData) (n : AgentName) (a : Agent) :
    (d.set n a).get n = a := by
  cases n <;> rfl

theorem StoreData.get_set_other (d : StoreData) (n m : AgentName) (a : Agent)
    (h : m ≠ n) : (d.set n a).get m = d.get m := by
  cases n <;> cases m <;> first
    | rfl
    | exact absurd rfl h

/-- Source `AgentStore.getNextFreeAgent`: the first agent in fixed pool order whose
status is `idle`, if any. -/
def getNextFreeAgent (d : StoreData) : Option AgentName :=
  AGENT_NAMES.find? (fun n => decide ((d.get n).status = AgentStatus.idle))

/-- Source `AgentStore.markBusy(name, workItemId, workItemTitle, workItemSource,
branch, worktreePath, pid)`: the record is replaced wholesale by a new object
holding exactly the listed fields plus a fresh `startedAt`; fields absent from
the object literal (`error`, `retryCount`) come out undefined. -/
def markBusy (d : StoreData) (n : AgentName)
    (workItemId workItemTitle workItemSource branch worktreePath : String)
    (pid : Nat) (startedAt : String) : StoreData :=
  d.set n
    { name := n
      status := AgentStatus.working
      workItemId := some workItemId
      workItemTitle := some workItemTitle
      workItemSource := some workItemSource
      branch := some branch
      worktreePath := some worktreePath
      pid := some pid
      startedAt := some startedAt }

/-- Source `AgentStore.markDone(name)`: spread of the old record with status `done`
and `pid` cleared. -/
def markDone (d : StoreData) (n : AgentName) : StoreData :=
  d.set n { d.get n with status := AgentStatus.done, pid := none }

/-- Source `AgentStore.markError(name, error)`: spread of the old record with status
`error`, the message stored, and `pid` cleared. -/
def markError (d : StoreData) (n : AgentName) (msg : String) : StoreData :=
  d.set n { d.get n with status := AgentStatus.error, error := some msg, pid := none }

/-- Source `AgentStore.incrementRetry(name)`: `(agent.retryCount ?? 0) + 1`, stored
and returned. -/
def incrementRetry (d : StoreData) (n : AgentName) : Nat × StoreData :=
  let a := d.get n
  let count := a.retryCount.getD 0 + 1
  (count, d.set n { a with retryCount := some count })

/-- Source `AgentStore.release(name)`: reset to the fresh idle default. -/
def release (d : StoreData) (n : AgentName) : StoreData :=
  d.set n (defaultAgent n)

/-- The provisioning update issued by `dispatchToAgent` (`dispatch.ts`):
`updateAgent(name, { status: "provisioning", workItemId, workItemTitle,
workItemSource, branch, worktreePath })`, i.e. a spread of the old record
with those six fields overridden. -/
def provisionUpdate (d : StoreData) (n : AgentName)
    (workItemId workItemTitle workItemSource branch worktreePath : String) : StoreData :=
  d.set n
    { d.get n with
      status := AgentStatus.provisioning
      workItemId := some workItemId
      workItemTitle := some workItemTitle
      workItemSource := some workItemSource
      branch := some branch
      worktreePath := some worktreePath }

/-- One agent's share of `AgentStore.cleanStaleProcesses`: if the record's
`pid` is truthy (defined and nonzero), the status is `working` or
`provisioning`, and `process.kill(pid, 0)` throws (the process is not alive),
the agent becomes `error` with "Process died unexpectedly" and `pid` cleared;
otherwise the record is untouched. -/
def cleanAgent (alive : Nat → Bool) (a : Agent) : Agent :=
  match a.pid with
  | none => a
  | some p =>
    if p ≠ 0 ∧ (a.status = AgentStatus.working ∨ a.status = AgentStatus.provisioning)
        ∧ alive p = false then
      { a with
        status := AgentStatus.error
        error := some "Process died unexpectedly"
        pid := none }
    else a

/-- Source `AgentStore.cleanStaleProcesses`, applied to every pool member. -/
def cleanStaleProcesses (alive : Nat → Bool) (d : StoreData) : StoreData :=
  { ember := cleanAgent alive d.ember
    flow := cleanAgent alive d.flow
    tempest := cleanAgent alive d.tempest
    terra := cleanAgent alive d.terra }

/-- The spread `{ ...defaults.agents[name], ...parsed.agents[name] }` in
`AgentStore.load`: every field present in the persisted JSON record overrides
the default. `name` and `status` are always serialized; an optional field is
serialized exactly when it is defined, so the merge takes the persisted value
when present and the default otherwise. -/
def mergeAgent (dflt persisted : Agent) : Agent :=
  { name := persisted.name
    status := persisted.status
    workItemId := persisted.workItemId <|> dflt.workItemId
    workItemTitle := persisted.workItemTitle <|> dflt.workItemTitle
    workItemSource := persisted.workItemSource <|> dflt.workItemSource
    branch := persisted.branch <|> dflt.branch
    worktreePath := persisted.worktreePath <|> dflt.worktreePath
    pid := persisted.pid <|> dflt.pid
    startedAt := persisted.startedAt <|> dflt.startedAt
    error := persisted.error <|> dflt.error
    retryCount := persisted.retryCount <|> dflt.retryCount }

/-- Source `AgentStore.load` applied to a file that was produced by `AgentStore.save`
for the store value `saved`: the JSON parses, every pool member is present,
and each record is merged onto its default. -/
def loadFromSaved (saved : StoreData) : StoreData :=
  { ember := mergeAgent (defaultAgent AgentName.ember) saved.ember
    flow := mergeAgent (defaultAgent AgentName.flow) saved.flow
    tempest := mergeAgent (defaultAgent AgentName.tempest) saved.tempest
    terra := mergeAgent (defaultAgent AgentName.terra) saved.terra }

/-- The `AgentStore` constructor's read path on a previously saved file:
`load()` followed by `cleanStaleProcesses()`. -/
def reloadFromSaved (alive : Nat → Bool) (saved : StoreData) : StoreData :=
  cleanStaleProcesses alive (loadFromSaved saved)

theorem mergeAgent_default (n : AgentName) (a : Agent) :
    mergeAgent (defaultAgent n) a = a := by
  cases a with
  | mk name status wid wti wso br wt pid st er rc =>
    simp only [mergeAgent, defaultAgent]
    cases wid <;> cases wti <;> cases wso <;> cases br <;> cases wt <;>
      cases pid <;> cases st <;> cases er <;> cases rc <;> rfl

theorem loadFromSaved_eq (saved : StoreData) : loadFromSaved saved = saved := by
  cases saved with
  | mk e f t r =>
    simp only [loadFromSaved, mergeAgent_default]

example : getNextFreeAgent defaultData = some AgentName.ember := by decide

example :
    getNextFreeAgent (markBusy defaultData AgentName.ember "i" "t" "s" "b" "w" 5 "now")
      = some AgentName.flow := by decide

/-- Source `MAX_RETRIES` from `use-agents.ts`. -/
def MAX_RETRIES : Nat := 3

/-- What the supervisor poll tick (`use-agents.ts`) decides for one observed
agent record: `done` agents are completed (mark-done + release), `error`
agents are retried while `retryCount ?? 0 < MAX_RETRIES` and finalized
(max-retries event, comment, release) otherwise, all other statuses are left
alone. -/
inductive SupervisorAction where
  | pass
  | complete
  | retry
  | finalize
deriving DecidableEq, Repr

/-- The per-agent branch structure of the supervisor poll tick in
`useAgents` (`use-agents.ts`). -/
def supervisorAction (a : Agent) : SupervisorAction :=
  if a.status = AgentStatus.done then SupervisorAction.complete
  else if a.status = AgentStatus.error then
    if a.retryCount.getD 0 < MAX_RETRIES then SupervisorAction.retry
    else SupervisorAction.finalize
  else SupervisorAction.pass

/-- One supervisor tick on an errored agent in which the retry dispatch
succeeds and the relaunched subprocess fails again, i.e. one
`error → working → error` cycle: the tick increments the retry counter
(`store.incrementRetry`), `retryAgent` re-reads the record and calls
`store.markBusy` with the stored work-item fields (`?? ""` for the source)
and the new subprocess pid, and the subprocess exit handler then calls
`store.markError`. -/
def failingRetryCycle (d : StoreData) (n : AgentName)
    (worktreePath : String) (pid : Nat) (startedAt errMsg : String) : StoreData :=
  let d1 := (incrementRetry d n).2
  let a1 := d1.get n
  let d2 := markBusy d1 n (a1.workItemId.getD "") (a1.workItemTitle.getD "")
    (a1.workItemSource.getD "") (a1.branch.getD "") worktreePath pid startedAt
  markError d2 n errMsg

/-- A state in which agent `ember` has been dispatched and its subprocess has
failed once: provisioning update, `markBusy`, then `markError`, starting from
the all-idle defaults. -/
def erroredEmber : StoreData :=
  markError
    (markBusy
      (provisionUpdate defaultData AgentName.ember "ITEM-1" "Fix bug" "Linear"
        "agent/ember/ITEM-1-fix-bug" "/repo/agent-ember")
      AgentName.ember "ITEM-1" "Fix bug" "Linear" "agent/ember/ITEM-1-fix-bug"
      "/repo/agent-ember" 41 "t0")
    AgentName.ember "Process exited with code 1"

/-- The state after three full failing retry cycles on `erroredEmber`. -/
def emberAfterThreeCycles : StoreData :=
  failingRetryCycle
    (failingRetryCycle
      (failingRetryCycle erroredEmber AgentName.ember "/repo/agent-ember" 51 "t1"
        "Process exited with code 1")
      AgentName.ember "/repo/agent-ember" 52 "t2" "Process exited with code 1")
    AgentName.ember "/repo/agent-ember" 53 "t3" "Process exited with code 1"

/-- The state after two supervisor retry-count increments on `erroredEmber`
(retry attempts whose dispatch failed before reaching `markBusy`). -/
def emberAfterTwoIncrements : StoreData :=
  (incrementRetry ((incrementRetry erroredEmber AgentName.ember).2) AgentName.ember).2

/-- Claim C1: the spec says an agent accumulating failures goes through the
`error → working → error` cycle exactly `MAX_RETRIES` (3) times, after which
the 4th failure triggers the finalize path instead of another retry. On the
code this is false: `markBusy` replaces the whole record, so every retry that
successfully relaunches the subprocess resets `retryCount` to undefined; after
three full failing cycles the counter observed by the supervisor is still
undefined (`?? 0 = 0 < 3`) and the tick chooses another retry, never finalize.
The last conjunct shows the bound does engage when the counter is not wiped:
three bare `incrementRetry` calls (retry attempts that fail before reaching
`markBusy`) drive the same agent to the finalize branch. -/
theorem c1_retry_cycle_never_finalizes :
    (emberAfterThreeCycles.get AgentName.ember).retryCount = none ∧
    supervisorAction (emberAfterThreeCycles.get AgentName.ember)
      = SupervisorAction.retry ∧
    supervisorAction (emberAfterThreeCycles.get AgentName.ember)
      ≠ SupervisorAction.finalize ∧
    supervisorAction
      (((incrementRetry emberAfterTwoIncrements AgentName.ember).2).get AgentName.ember)
      = SupervisorAction.finalize := by
  exact ⟨rfl, rfl, by decide, rfl⟩

/-- The record produced by calling `markBusy` on an agent whose stored
`retryCount` is 2. -/
def emberRelaunched : StoreData :=
  markBusy emberAfterTwoIncrements AgentName.ember "ITEM-1" "Fix bug" "Linear"
    "agent/ember/ITEM-1-fix-bug" "/repo/agent-ember" 60 "t9"

/-- Claim C2: the spec says `markBusy` transitions the record to `working`
with a fresh `startedAt` and a cleared `error`, while `retryCount` is left
untouched. On the code the first three parts hold but the last is false:
`markBusy` assigns a brand-new object literal that does not mention
`retryCount`, so a record that had `retryCount = 2` comes out with
`retryCount` undefined. `emberAfterTwoIncrements` reaches `retryCount = 2`
through two `incrementRetry` calls on an errored agent, exactly as the
supervisor does. -/
theorem c2_markBusy_resets_retryCount :
    (emberAfterTwoIncrements.get AgentName.ember).retryCount = some 2 ∧
    (emberRelaunched.get AgentName.ember).status = AgentStatus.working ∧
    (emberRelaunched.get AgentName.ember).startedAt = some "t9" ∧
    (emberRelaunched.get AgentName.ember).error = none ∧
    (emberRelaunched.get AgentName.ember).retryCount = none ∧
    (emberRelaunched.get AgentName.ember).retryCount
      ≠ (emberAfterTwoIncrements.get AgentName.ember).retryCount := by
  exact ⟨rfl, rfl, rfl, rfl, rfl, by decide⟩

/-- One registry mutation as it is actually issued by the system. Each
constructor's guard records the status under which the corresponding call
site fires in the source (single-threaded event-loop model):
`provision` is `dispatchToAgent`'s update on an agent just claimed through
`getNextFreeAgent`; `launch` is `dispatchToAgent`'s `markBusy` after the
provisioning update; `provisionFail` is `dispatchToAgent`'s catch branch
before the subprocess exists; `procDone`/`procFail` are the subprocess exit
and error handlers of a working agent; `retryInc` is the supervisor's
`incrementRetry` on an errored agent; `retryLaunch` is `retryAgent`'s
`markBusy` on an errored agent; `doRelease` is `release`, issued by the
supervisor's complete/finalize paths and by the interactive release command
(on any agent). -/
inductive RegistryStep : StoreData → StoreData → Prop where
  | provision (d : StoreData) (n : AgentName) (itemId title source branch wt : String) :
      getNextFreeAgent d = some n →
      RegistryStep d (provisionUpdate d n itemId title source branch wt)
  | launch (d : StoreData) (n : AgentName) (itemId title source branch wt : String)
      (pid : Nat) (startedAt : String) :
      (d.get n).status = AgentStatus.provisioning →
      RegistryStep d (markBusy d n itemId title source branch wt pid startedAt)
  | provisionFail (d : StoreData) (n : AgentName) (msg : String) :
      (d.get n).status = AgentStatus.provisioning →
      RegistryStep d (markError d n msg)
  | procDone (d : StoreData) (n : AgentName) :
      (d.get n).status = AgentStatus.working →
      RegistryStep d (markDone d n)
  | procFail (d : StoreData) (n : AgentName) (msg : String) :
      (d.get n).status = AgentStatus.working →
      RegistryStep d (markError d n msg)
  | retryInc (d : StoreData) (n : AgentName) :
      (d.get n).status = AgentStatus.error →
      RegistryStep d (incrementRetry d n).2
  | retryLaunch (d : StoreData) (n : AgentName) (itemId title source branch wt : String)
      (pid : Nat) (startedAt : String) :
      (d.get n).status = AgentStatus.error →
      RegistryStep d (markBusy d n itemId title source branch wt pid startedAt)
  | doRelease (d : StoreData) (n : AgentName) :
      RegistryStep d (release d n)

/-- Store states reachable from the all-idle initial state through the
registry's mutating operations. -/
inductive RegistryReachable : StoreData → Prop where
  | init : RegistryReachable defaultData
  | step {d d' : StoreData} : RegistryReachable d → RegistryStep d d' →
      RegistryReachable d'

/-- The per-agent registry invariant: the record is keyed by its own name,
`workItemId` is undefined exactly in status `idle`, and a `pid` is recorded
only in status `working`. -/
def AgentInv (n : AgentName) (a : Agent) : Prop :=
  a.name = n ∧
  (a.status = AgentStatus.idle ↔ a.workItemId = none) ∧
  (∀ p : Nat, a.pid = some p → a.status = AgentStatus.working)

/-- The store invariant: every pool member satisfies `AgentInv`. -/
def StoreInv (d : StoreData) : Prop :=
  ∀ n : AgentName, AgentInv n (d.get n)

theorem storeInv_default : StoreInv defaultData := by
  intro n
  cases n <;>
    exact ⟨rfl, ⟨fun _ => rfl, fun _ => rfl⟩, (fun p hp => nomatch hp)⟩

theorem find?_idle_status {d : StoreData} {n : AgentName}
    (h : getNextFreeAgent d = some n) : (d.get n).status = AgentStatus.idle := by
  have hp := List.find?_some h
  simpa using hp

theorem storeInv_set {d : StoreData} (hd : StoreInv d) (n : AgentName) (a : Agent)
    (ha : AgentInv n a) : StoreInv (d.set n a) := by
  intro m
  by_cases hm : m = n
  · subst hm
    rw [StoreData.get_set_self]
    exact ha
  · rw [StoreData.get_set_other d n m a hm]
    exact hd m

theorem storeInv_step {d d' : StoreData} (hd : StoreInv d) (hs : RegistryStep d d') :
    StoreInv d' := by
  cases hs with
  | provision n itemId title source branch wt hfree =>
    unfold provisionUpdate
    refine storeInv_set hd n _ ⟨(hd n).1, ⟨(fun h => nomatch h), (fun h => nomatch h)⟩, ?_⟩
    intro p hp
    have hq := (hd n).2.2 p hp
    rw [find?_idle_status hfree] at hq
    exact absurd hq (by decide)
  | launch n itemId title source branch wt pid startedAt hprov =>
    unfold markBusy
    exact storeInv_set hd n _
      ⟨rfl, ⟨(fun h => nomatch h), (fun h => nomatch h)⟩, (fun p _ => rfl)⟩
  | provisionFail n msg hprov =>
    unfold markError
    refine storeInv_set hd n _ ⟨(hd n).1, ⟨(fun h => nomatch h), ?_⟩, (fun p hp => nomatch hp)⟩
    intro h
    have h2 := ((hd n).2.1).mpr h
    rw [hprov] at h2
    exact absurd h2 (by decide)
  | procDone n hwork =>
    unfold markDone
    refine storeInv_set hd n _ ⟨(hd n).1, ⟨(fun h => nomatch h), ?_⟩, (fun p hp => nomatch hp)⟩
    intro h
    have h2 := ((hd n).2.1).mpr h
    rw [hwork] at h2
    exact absurd h2 (by decide)
  | procFail n msg hwork =>
    unfold markError
    refine storeInv_set hd n _ ⟨(hd n).1, ⟨(fun h => nomatch h), ?_⟩, (fun p hp => nomatch hp)⟩
    intro h
    have h2 := ((hd n).2.1).mpr h
    rw [hwork] at h2
    exact absurd h2 (by decide)
  | retryInc n herr =>
    unfold incrementRetry
    refine storeInv_set hd n _ ⟨(hd n).1, ⟨?_, ?_⟩, ?_⟩
    · intro h
      have h2 : (d.get n).status = AgentStatus.idle := h
      rw [herr] at h2
      exact absurd h2 (by decide)
    · intro h
      have h2 : (d.get n).workItemId = none := h
      have h3 := ((hd n).2.1).mpr h2
      rw [herr] at h3
      exact absurd h3 (by decide)
    · intro p hp
      have hp2 : (d.get n).pid = some p := hp
      exact (hd n).2.2 p hp2
  | retryLaunch n itemId title source branch wt pid startedAt herr =>
    unfold markBusy
    exact storeInv_set hd n _
      ⟨rfl, ⟨(fun h => nomatch h), (fun h => nomatch h)⟩, (fun p _ => rfl)⟩
  | doRelease n =>
    unfold release
    exact storeInv_set hd n _
      ⟨rfl, ⟨fun _ => rfl, fun _ => rfl⟩, (fun p hp => nomatch hp)⟩

theorem storeInv_reachable {d : StoreData} (h : RegistryReachable d) : StoreInv d := by
  induction h with
  | init => exact storeInv_default
  | step _ hs ih => exact storeInv_step ih hs

theorem cleanStaleProcesses_get (alive : Nat → Bool) (d : StoreData) (n : AgentName) :
    (cleanStaleProcesses alive d).get n = cleanAgent alive (d.get n) := by
  cases n <;> rfl

/-- Claim C3: in every state reachable through the registry's mutating
operations (the provisioning update, `markBusy`, `markDone`, `markError`,
`incrementRetry`, `release`), each agent's status is `idle` exactly when its
`workItemId` is undefined. -/
theorem c3_idle_iff_no_workItemId {d : StoreData} (h : RegistryReachable d)
    (n : AgentName) :
    (d.get n).status = AgentStatus.idle ↔ (d.get n).workItemId = none :=
  (storeInv_reachable h n).2.1

/-- A state with `ember` claimed and provisioning, reached from the initial
store through the dispatch path. -/
def provisionedEmber : StoreData :=
  provisionUpdate defaultData AgentName.ember "ITEM-1" "Fix bug" "Linear"
    "agent/ember/ITEM-1-fix-bug" "/repo/agent-ember"

theorem provisionedEmber_reachable : RegistryReachable provisionedEmber :=
  RegistryReachable.step RegistryReachable.init
    (RegistryStep.provision defaultData AgentName.ember "ITEM-1" "Fix bug" "Linear"
      "agent/ember/ITEM-1-fix-bug" "/repo/agent-ember" rfl)

theorem c3_idle_iff_no_workItemId_witness :
    ((provisionedEmber.get AgentName.ember).status = AgentStatus.idle ↔
      (provisionedEmber.get AgentName.ember).workItemId = none) ∧
    ((provisionedEmber.get AgentName.flow).status = AgentStatus.idle ↔
      (provisionedEmber.get AgentName.flow).workItemId = none) :=
  ⟨c3_idle_iff_no_workItemId provisionedEmber_reachable AgentName.ember,
   c3_idle_iff_no_workItemId provisionedEmber_reachable AgentName.flow⟩

/-- Claim C10: in every reachable state, a `pid` is recorded only while the
status is `working` (the provisioning update spreads the old record and never
writes a `pid`), and consequently the load-time stale-process sweep never
touches an agent persisted in `provisioning`: after a reload it is unchanged,
not transitioned to `error`. -/
theorem c10_pid_only_when_working {d : StoreData} (h : RegistryReachable d) :
    (∀ (n : AgentName) (p : Nat), (d.get n).pid = some p →
      (d.get n).status = AgentStatus.working) ∧
    (∀ (alive : Nat → Bool) (n : AgentName),
      (d.get n).status = AgentStatus.provisioning →
      (reloadFromSaved alive d).get n = d.get n) := by
  have hinv := storeInv_reachable h
  refine ⟨fun n p hp => (hinv n).2.2 p hp, ?_⟩
  intro alive n hprov
  have hpid : (d.get n).pid = none := by
    cases hq : (d.get n).pid with
    | none => rfl
    | some p =>
      have := (hinv n).2.2 p hq
      rw [hprov] at this
      exact absurd this (by decide)
  rw [reloadFromSaved, loadFromSaved_eq, cleanStaleProcesses_get]
  simp [cleanAgent, hpid]

theorem c10_pid_only_when_working_witness :
    ((provisionedEmber.get AgentName.ember).pid = none) ∧
    (reloadFromSaved (fun _ => false) provisionedEmber).get AgentName.ember
      = provisionedEmber.get AgentName.ember := by
  constructor
  · rfl
  · exact (c10_pid_only_when_working provisionedEmber_reachable).2
      (fun _ => false) AgentName.ember rfl

/-- Claim C4: persisting the agent records and reloading from the same store
(`save` then the constructor's `load` + `cleanStaleProcesses`) leaves every
agent whose recorded `pid` is absent or still live completely unchanged (in
particular identical `status` and `workItemId`), while an agent persisted in
`provisioning` or `working` whose recorded `pid` (a real, nonzero process id)
is dead is transitioned to `error` with message "Process died unexpectedly",
its `pid` cleared and its `workItemId` preserved. -/
theorem c4_save_reload_roundtrip (d : StoreData) (alive : Nat → Bool) :
    (∀ n : AgentName, (d.get n).pid = none →
      (reloadFromSaved alive d).get n = d.get n) ∧
    (∀ (n : AgentName) (p : Nat), (d.get n).pid = some p → alive p = true →
      (reloadFromSaved alive d).get n = d.get n) ∧
    (∀ (n : AgentName) (p : Nat), (d.get n).pid = some p → p ≠ 0 →
      alive p = false →
      ((d.get n).status = AgentStatus.working ∨
        (d.get n).status = AgentStatus.provisioning) →
      ((reloadFromSaved alive d).get n).status = AgentStatus.error ∧
      ((reloadFromSaved alive d).get n).error = some "Process died unexpectedly" ∧
      ((reloadFromSaved alive d).get n).pid = none ∧
      ((reloadFromSaved alive d).get n).workItemId = (d.get n).workItemId) := by
  refine ⟨?_, ?_, ?_⟩
  · intro n hp
    rw [reloadFromSaved, loadFromSaved_eq, cleanStaleProcesses_get]
    simp [cleanAgent, hp]
  · intro n p hp halive
    rw [reloadFromSaved, loadFromSaved_eq, cleanStaleProcesses_get]
    simp [cleanAgent, hp, halive]
  · intro n p hp hnz halive hstat
    rw [reloadFromSaved, loadFromSaved_eq, cleanStaleProcesses_get]
    simp [cleanAgent, hp, hnz, halive, hstat]

/-- A store persisted with `ember` working on a dead pid and `flow` working
on a live one. -/
def crashedStore : StoreData :=
  markBusy
    (markBusy defaultData AgentName.ember "ITEM-1" "Fix bug" "Linear"
      "agent/ember/ITEM-1-fix-bug" "/repo/agent-ember" 999999 "t0")
    AgentName.flow "ITEM-2" "Add feature" "Trello" "agent/flow/ITEM-2-add-feature"
    "/repo/agent-flow" 42 "t1"

theorem c4_save_reload_roundtrip_witness :
    ((reloadFromSaved (fun p => p == 42) crashedStore).get AgentName.flow
      = crashedStore.get AgentName.flow) ∧
    ((reloadFromSaved (fun p => p == 42) crashedStore).get AgentName.tempest
      = crashedStore.get AgentName.tempest) ∧
    ((reloadFromSaved (fun p => p == 42) crashedStore).get AgentName.ember).status
      = AgentStatus.error ∧
    ((reloadFromSaved (fun p => p == 42) crashedStore).get AgentName.ember).error
      = some "Process died unexpectedly" ∧
    ((reloadFromSaved (fun p => p == 42) crashedStore).get AgentName.ember).pid
      = none ∧
    ((reloadFromSaved (fun p => p == 42) crashedStore).get AgentName.ember).workItemId
      = some "ITEM-1" := by
  have h := c4_save_reload_roundtrip crashedStore (fun p => p == 42)
  have h2 := h.2.1 AgentName.flow 42 rfl rfl
  have h1 := h.1 AgentName.tempest rfl
  have h3 := h.2.2 AgentName.ember 999999 rfl (by decide) rfl (Or.inl rfl)
  refine ⟨h2, h1, h3.1, h3.2.1, h3.2.2.1, ?_⟩
  rw [h3.2.2.2]
  rfl

/-- Claim C5: `getNextFreeAgent` returns the first agent with status `idle`
in the fixed configured order `[ember, flow, tempest, terra]`, or none when
no agent is idle; in particular with all four idle it returns `ember`, and
with `ember` busy it returns `flow`. -/
theorem c5_getNextFreeAgent_first_idle (d : StoreData) :
    (getNextFreeAgent d =
      if (d.get AgentName.ember).status = AgentStatus.idle then some AgentName.ember
      else if (d.get AgentName.flow).status = AgentStatus.idle then some AgentName.flow
      else if (d.get AgentName.tempest).status = AgentStatus.idle then some AgentName.tempest
      else if (d.get AgentName.terra).status = AgentStatus.idle then some AgentName.terra
      else none) ∧
    getNextFreeAgent defaultData = some AgentName.ember ∧
    getNextFreeAgent (markBusy defaultData AgentName.ember "ITEM-1" "Fix bug"
      "Linear" "agent/ember/ITEM-1-fix-bug" "/repo/agent-ember" 41 "t0")
      = some AgentName.flow := by
  refine ⟨?_, by decide, by decide⟩
  by_cases h1 : (d.get AgentName.ember).status = AgentStatus.idle <;>
    by_cases h2 : (d.get AgentName.flow).status = AgentStatus.idle <;>
      by_cases h3 : (d.get AgentName.tempest).status = AgentStatus.idle <;>
        by_cases h4 : (d.get AgentName.terra).status = AgentStatus.idle <;>
          simp [getNextFreeAgent, AGENT_NAMES, List.find?, h1, h2, h3, h4]

/-- Card target statuses, from `CardStatus` in `providers/provider.ts`
("in_progress" | "in_review" | "done"). -/
inductive CardStatus where
  | inProgress
  | inReview
  | done
deriving DecidableEq, Repr

/-- A tracker collaborator as the synchronizer sees it (`WorkItemProvider`):
its registered `name` and, for each optional capability, `none` when the
method is absent and `some b` when it is present, with `b` telling whether an
invocation resolves (`true`) or rejects (`false`). -/
structure TrackerProvider where
  name : String
  moveCard : Option Bool := none
  addComment : Option Bool := none
  markItemDone : Option Bool := none
deriving DecidableEq, Repr

/-- Source `moveCard` from `card-mover.ts`, instrumented with the names of the
providers actually invoked (in order) and whether some invocation succeeded:
providers without the capability are skipped (`continue`), a successful call
returns at once, a rejected call is swallowed by the `catch` and iteration
proceeds. The source function resolves (never throws) in every case. -/
def moveCard (itemId : String) (status : CardStatus) :
    List TrackerProvider → List String × Bool
  | [] => ([], false)
  | p :: ps =>
    match p.moveCard with
    | none => moveCard itemId status ps
    | some true => ([p.name], true)
    | some false =>
      (p.name :: (moveCard itemId status ps).1, (moveCard itemId status ps).2)

/-- The comment loop of `handleMaxRetriesExceeded` (`use-agents.ts`): for
each provider with `addComment`, try it and `break` on the first success,
swallowing rejections. Instrumented like `moveCard`. -/
def addCommentLoop (itemId comment : String) :
    List TrackerProvider → List String × Bool
  | [] => ([], false)
  | p :: ps =>
    match p.addComment with
    | none => addCommentLoop itemId comment ps
    | some true => ([p.name], true)
    | some false =>
      (p.name :: (addCommentLoop itemId comment ps).1, (addCommentLoop itemId comment ps).2)

/-- JavaScript truthiness of an optional string (`!s` is true exactly for
`undefined` and `""`). -/
def strTruthy : Option String → Bool
  | none => false
  | some s => decide (s ≠ "")

/-- Display keys for building log and comment strings. -/
def agentNameStr : AgentName → String
  | AgentName.ember => "ember"
  | AgentName.flow => "flow"
  | AgentName.tempest => "tempest"
  | AgentName.terra => "terra"

/-- The comment text built by `handleMaxRetriesExceeded`. -/
def failureComment (a : Agent) : String :=
  "Agent " ++ agentNameStr a.name ++ " failed after " ++ toString MAX_RETRIES
    ++ " attempts: " ++ a.error.getD "Unknown error"

/-- Source `handleMaxRetriesExceeded` (`use-agents.ts`), restricted to its tracker
interaction: when the agent holds a work item id, run the comment loop with
the failure comment; otherwise no provider is contacted. (The local failure
log append has no tracker-visible effect.) -/
def handleMaxRetriesExceeded (a : Agent) (ps : List TrackerProvider) :
    List String × Bool :=
  if strTruthy a.workItemId then
    addCommentLoop (a.workItemId.getD "") (failureComment a) ps
  else ([], false)

/-- Modelled from the spec's words (§4.5), for comparison with the code: the
collaborators a best-effort operation invokes are, among those declaring the
capability and in registration order, the failing prefix followed by the
first succeeding one (if any); every capable collaborator is tried when none
succeeds. -/
def bestEffortInvoked (cap : TrackerProvider → Option Bool)
    (ps : List TrackerProvider) : List String :=
  let el := ps.filter (fun p => (cap p).isSome)
  (el.takeWhile (fun p => cap p != some true)).map TrackerProvider.name
    ++ ((el.dropWhile (fun p => cap p != some true)).head?.map TrackerProvider.name).toList

/-- Modelled from the spec's words (§4.5): a best-effort operation succeeds
exactly when some collaborator's capability invocation succeeds. -/
def bestEffortSucceeds (cap : TrackerProvider → Option Bool)
    (ps : List TrackerProvider) : Bool :=
  ps.any (fun p => cap p == some true)

theorem moveCard_eq_bestEffort (itemId : String) (status : CardStatus)
    (ps : List TrackerProvider) :
    moveCard itemId status ps =
      (bestEffortInvoked (fun p => p.moveCard) ps,
        bestEffortSucceeds (fun p => p.moveCard) ps) := by
  induction ps with
  | nil => rfl
  | cons p ps ih =>
    cases hc : p.moveCard with
    | none => simp [moveCard, bestEffortInvoked, bestEffortSucceeds, hc, ih]
    | some b =>
      cases b with
      | true => simp [moveCard, bestEffortInvoked, bestEffortSucceeds, hc]
      | false => simp [moveCard, bestEffortInvoked, bestEffortSucceeds, hc, ih]

theorem addCommentLoop_eq_bestEffort (itemId comment : String)
    (ps : List TrackerProvider) :
    addCommentLoop itemId comment ps =
      (bestEffortInvoked (fun p => p.addComment) ps,
        bestEffortSucceeds (fun p => p.addComment) ps) := by
  induction ps with
  | nil => rfl
  | cons p ps ih =>
    cases hc : p.addComment with
    | none => simp [addCommentLoop, bestEffortInvoked, bestEffortSucceeds, hc, ih]
    | some b =>
      cases b with
      | true => simp [addCommentLoop, bestEffortInvoked, bestEffortSucceeds, hc]
      | false => simp [addCommentLoop, bestEffortInvoked, bestEffortSucceeds, hc, ih]

/-- Claim C7: every "move to status" call (`moveCard`) and every "add
comment" call (the max-retries comment loop) tries the collaborators in
registration order skipping those without the capability, stops at the first
success, swallows per-collaborator failures, and returns to its caller
normally even when every collaborator fails or none has the capability: both
loops compute exactly the best-effort policy, and the finalize path contacts
no provider at all when the agent holds no work item id. -/
theorem c7_best_effort_iteration :
    (∀ (itemId : String) (status : CardStatus) (ps : List TrackerProvider),
      moveCard itemId status ps =
        (bestEffortInvoked (fun p => p.moveCard) ps,
          bestEffortSucceeds (fun p => p.moveCard) ps)) ∧
    (∀ (itemId comment : String) (ps : List TrackerProvider),
      addCommentLoop itemId comment ps =
        (bestEffortInvoked (fun p => p.addComment) ps,
          bestEffortSucceeds (fun p => p.addComment) ps)) ∧
    (∀ (a : Agent) (ps : List TrackerProvider),
      handleMaxRetriesExceeded a ps =
        if strTruthy a.workItemId then
          (bestEffortInvoked (fun p => p.addComment) ps,
            bestEffortSucceeds (fun p => p.addComment) ps)
        else ([], false)) := by
  refine ⟨moveCard_eq_bestEffort, addCommentLoop_eq_bestEffort, ?_⟩
  intro a ps
  cases h : strTruthy a.workItemId <;>
    simp [handleMaxRetriesExceeded, h, addCommentLoop_eq_bestEffort]

/-- The outcome of `markWorkItemDone` (`use-agents.ts`): an early return
(missing id/source, no provider registered under the item's source name, or
that provider lacking `markItemDone`), a "marked-done" activity event, or a
"mark-done-failed" activity event. The function resolves in every case. -/
inductive MarkDoneOutcome where
  | noOp
  | markedDone
  | markDoneFailed
deriving DecidableEq, Repr

/-- Source `markWorkItemDone` (`use-agents.ts`), instrumented with the names of the
providers whose `markItemDone` is invoked: it returns early unless the agent
holds a truthy `workItemId` and `workItemSource`, then selects the single
first provider whose `name` equals `workItemSource` (`providers.find`),
returns early if it is absent or lacks `markItemDone`, and otherwise attempts
that one call, logging "marked-done" on success and "mark-done-failed" on
rejection. -/
def markWorkItemDone (a : Agent) (ps : List TrackerProvider) :
    List String × MarkDoneOutcome :=
  if strTruthy a.workItemId = false ∨ strTruthy a.workItemSource = false then
    ([], MarkDoneOutcome.noOp)
  else
    match ps.find? (fun p => p.name == a.workItemSource.getD "") with
    | none => ([], MarkDoneOutcome.noOp)
    | some p =>
      match p.markItemDone with
      | none => ([], MarkDoneOutcome.noOp)
      | some true => ([p.name], MarkDoneOutcome.markedDone)
      | some false => ([p.name], MarkDoneOutcome.markDoneFailed)

/-- A done agent holding an item whose source tracker is registered as "P1". -/
def c6Agent : Agent :=
  { name := AgentName.ember
    status := AgentStatus.done
    workItemId := some "ITEM-1"
    workItemTitle := some "Fix bug"
    workItemSource := some "P1" }

/-- Collaborator "P1": declares mark-done, its invocation rejects. -/
def c6P1 : TrackerProvider := { name := "P1", markItemDone := some false }

/-- Collaborator "P2": declares mark-done, its invocation resolves. -/
def c6P2 : TrackerProvider := { name := "P2", markItemDone := some true }

/-- Collaborator "P3": declares mark-done, its invocation resolves. -/
def c6P3 : TrackerProvider := { name := "P3", markItemDone := some true }

/-- Claim C6 counterexample: with collaborators [P1 (declares mark-done,
fails), P2 (succeeds), P3], the claim predicts P1 then P2 are invoked for the
"mark done" reconciliation. On the code only P1 is invoked: `markWorkItemDone`
does not iterate on failure; it picks the single `find` match for the item's
source and stops after its one failed attempt, so P2 is never contacted. -/
theorem c6_counterexample :
    (markWorkItemDone c6Agent [c6P1, c6P2, c6P3]).1 = ["P1"] ∧
    (markWorkItemDone c6Agent [c6P1, c6P2, c6P3]).2 = MarkDoneOutcome.markDoneFailed ∧
    ("P2" ∈ (markWorkItemDone c6Agent [c6P1, c6P2, c6P3]).1 → False) := by
  refine ⟨rfl, rfl, ?_⟩
  decide

/-- Claim C6 as amended: the "mark done" reconciliation does not iterate the
collaborator list; it selects the single first provider registered under the
item's source name, attempts `markItemDone` at most once when that provider
declares it, swallows a failure after logging it, never tries a further
collaborator (at most one invocation ever happens), and returns without
error in every case. -/
theorem c6_markdone_single_provider (a : Agent) (ps : List TrackerProvider)
    (p : TrackerProvider)
    (h1 : strTruthy a.workItemId = true)
    (h2 : strTruthy a.workItemSource = true)
    (hfind : ps.find? (fun q => q.name == a.workItemSource.getD "") = some p) :
    (markWorkItemDone a ps).1 = (if p.markItemDone.isSome then [p.name] else []) ∧
    (markWorkItemDone a ps).2 =
      (match p.markItemDone with
        | none => MarkDoneOutcome.noOp
        | some true => MarkDoneOutcome.markedDone
        | some false => MarkDoneOutcome.markDoneFailed) ∧
    (markWorkItemDone a ps).1.length ≤ 1 := by
  have hguard : (strTruthy a.workItemId = false ∨ strTruthy a.workItemSource = false)
      = False := by
    simp [h1, h2]
  cases hc : p.markItemDone with
  | none => simp [markWorkItemDone, hguard, hfind, hc]
  | some b => cases b <;> simp [markWorkItemDone, hguard, hfind, hc]

theorem c6_markdone_single_provider_witness :
    (markWorkItemDone c6Agent [c6P1, c6P2]).1 = ["P1"] ∧
    (markWorkItemDone c6Agent [c6P1, c6P2]).2 = MarkDoneOutcome.markDoneFailed ∧
    (markWorkItemDone c6Agent [c6P1, c6P2]).1.length ≤ 1 := by
  have h := c6_markdone_single_provider c6Agent [c6P1, c6P2] c6P1 rfl rfl rfl
  exact ⟨h.1, h.2.1, h.2.2⟩

/-- A normalized work item, from `model/work-item.ts`. -/
structure WorkItem where
  id : String
  title : String
  description : Option String := none
  status : Option String := none
  priority : Option String := none
  labels : List String := []
  source : String
  team : Option String := none
  url : Option String := none
deriving DecidableEq, Repr

/-- The `issue` part of a GitHub webhook payload (`github-handler.ts`);
`labels` holds the optional `name` of each label object. -/
structure GitHubIssue where
  number : Option Nat := none
  title : Option String := none
  body : Option String := none
  htmlUrl : Option String := none
  labels : Option (List (Option String)) := none
  state : Option String := none
deriving DecidableEq, Repr

/-- The `pull_request` part of a GitHub webhook payload; `headRef` is
`pull_request.head?.ref`. -/
structure GitHubPullRequest where
  merged : Option Bool := none
  headRef : Option String := none
  title : Option String := none
deriving DecidableEq, Repr

/-- A GitHub webhook payload as typed in `github-handler.ts`;
`repositoryFullName` is `repository?.full_name`. -/
structure GitHubWebhookBody where
  action : Option String := none
  issue : Option GitHubIssue := none
  pullRequest : Option GitHubPullRequest := none
  repositoryFullName : Option String := none
deriving DecidableEq, Repr

/-- Source `CardStatusChange` from `github-handler.ts`. -/
structure CardStatusChange where
  itemId : String
  status : CardStatus
deriving DecidableEq, Repr

/-- A JavaScript `\w` character: ASCII letter, digit or underscore. -/
def isWordChar (c : Char) : Bool := c.isAlphanum || c == '_'

/-- The shared pattern of the guard regex and the `replace` in
`extractItemIdFromBranch`: consume a leading `agent/`, a nonempty greedy run
of word characters, and a `/`, returning the remainder; fail otherwise. -/
def stripAgentLead (cs : List Char) : Option (List Char) :=
  match cs with
  | 'a' :: 'g' :: 'e' :: 'n' :: 't' :: '/' :: rest =>
    let run := rest.takeWhile isWordChar
    if run.isEmpty then none
    else
      match rest.drop run.length with
      | '/' :: tail => some tail
      | _ => none
  | _ => none

/-- JavaScript `String.prototype.split("-")`: split at every dash, keeping
empty segments; the empty string yields one empty segment. -/
def splitOnDash : List Char → List (List Char)
  | [] => [[]]
  | c :: rest =>
    let r := splitOnDash rest
    if c == '-' then [] :: r
    else
      match r with
      | [] => [[c]]
      | seg :: segs => (c :: seg) :: segs

/-- Regex `/^[A-Z]+$/.test(s)`: nonempty and all ASCII uppercase letters. -/
def isAllUpper (s : String) : Bool :=
  !s.isEmpty && s.data.all (fun c => decide ('A' ≤ c) && decide (c ≤ 'Z'))

/-- Regex `/^\d+/.test(s)`: the string starts with an ASCII digit. -/
def startsWithDigit (s : String) : Bool :=
  match s.data with
  | c :: _ => c.isDigit
  | [] => false

/-- Source `extractItemIdFromBranch` from `github-handler.ts`: the branch must match
`^agent\/\w+\/([^-]+-?\d*)` (after the `agent/{name}/` lead, at least one
character that is not a dash); the remainder after the lead is split on
dashes; when the first segment is all uppercase letters and the second starts
with a digit the compound `{parts0}-{parts1}` is returned, otherwise the
first segment alone. -/
def extractItemIdFromBranch (branch : String) : Option String :=
  match stripAgentLead branch.data with
  | none => none
  | some rest =>
    match rest with
    | [] => none
    | c :: _ =>
      if c == '-' then none
      else
        match (splitOnDash rest).map String.mk with
        | [] => none
        | [p0] => some p0
        | p0 :: p1 :: _ =>
          if isAllUpper p0 && startsWithDigit p1 then some (p0 ++ "-" ++ p1)
          else some p0

example : extractItemIdFromBranch "agent/ember/LIN-42-fix-auth-flow" = some "LIN-42" := by
  decide

example : extractItemIdFromBranch "agent/tide/69932610-move-card-feature"
    = some "69932610" := by decide

example : extractItemIdFromBranch "agent/gale/abc12345-add-dark-mode"
    = some "abc12345" := by decide

example : extractItemIdFromBranch "feature/new-thing" = none := by decide

/-- Source `parseGitHubWebhook` from `github-handler.ts`: only `assigned`/`labeled`
actions with a truthy issue number and title are actionable; labels keep the
truthy names. -/
def parseGitHubWebhook (b : GitHubWebhookBody) : Option WorkItem :=
  if b.action ≠ some "assigned" ∧ b.action ≠ some "labeled" then none
  else
    match b.issue with
    | none => none
    | some is =>
      match is.number, is.title with
      | some num, some title =>
        if num = 0 ∨ title = "" then none
        else
          some
            { id := "#" ++ toString num
              title := title
              description := is.body
              status := is.state
              labels := (is.labels.getD []).filterMap (fun o =>
                match o with
                | some s => if s == "" then none else some s
                | none => none)
              source := "GitHub"
              team := b.repositoryFullName
              url := is.htmlUrl }
      | _, _ => none

/-- Source `parseGitHubPrMerge` from `github-handler.ts`: a `closed` action on a
merged pull request with a truthy head branch from which an item id can be
extracted yields a move of that item to `done`. -/
def parseGitHubPrMerge (b : GitHubWebhookBody) : Option CardStatusChange :=
  if b.action ≠ some "closed" then none
  else
    match b.pullRequest with
    | none => none
    | some pr =>
      if pr.merged ≠ some true then none
      else
        match pr.headRef with
        | none => none
        | some branch =>
          if branch = "" then none
          else
            match extractItemIdFromBranch branch with
            | none => none
            | some itemId => some { itemId := itemId, status := CardStatus.done }

/-- The result value of `webhookDispatch`: `{ dispatched: boolean;
agent?: string }`. -/
structure DispatchResult where
  dispatched : Bool
  agent : Option AgentName := none
deriving DecidableEq, Repr

/-- The JSON bodies the webhook server writes for a handled POST
(`webhooks/server.ts`): `{ ignored: true, reason }`,
`{ dispatched: true, agent, item }`,
`{ dispatched: false, queued: true, item }`, and
`{ cardMoved: true, itemId, status }`. -/
inductive WebhookResponseBody where
  | ignored (reason : String)
  | dispatchedResp (agent : Option AgentName) (item : String)
  | queuedResp (item : String)
  | cardMoved (itemId : String) (status : CardStatus)
deriving DecidableEq, Repr

/-- Source `webhookDispatch` (`webhook-dispatcher.ts`) on an already-loaded store:
when no agent is idle the item is pushed onto the end of the persisted queue
and `{ dispatched: false }` is returned with no store mutation and no tracker
call; when a free agent exists, `dispatchToAgent` runs (its store mutations
depend on the external git/subprocess world and are abstracted as
`dispatchEffect`) and the item is opportunistically moved to "in progress"
across the providers. The last component is the card-move invocation trace. -/
def webhookDispatch (dispatchEffect : AgentName → WorkItem → StoreData → StoreData)
    (item : WorkItem) (store : StoreData) (queue : List WorkItem)
    (ps : List TrackerProvider) :
    StoreData × List WorkItem × DispatchResult × List String :=
  match getNextFreeAgent store with
  | none => (store, queue ++ [item], { dispatched := false }, [])
  | some a =>
      (dispatchEffect a item store, queue,
        { dispatched := true, agent := some a },
        (moveCard item.id CardStatus.inProgress ps).1)

/-- The webhook server's handling of a parsed POST body
(`webhooks/server.ts`): an unactionable event is acknowledged as ignored; an
actionable item goes through `webhookDispatch`, and the response reports
`{ dispatched: true, agent, item }` or `{ dispatched: false, queued: true,
item }` accordingly. -/
def handleParsedItem (dispatchEffect : AgentName → WorkItem → StoreData → StoreData)
    (ps : List TrackerProvider) (store : StoreData) (queue : List WorkItem) :
    Option WorkItem → StoreData × List WorkItem × WebhookResponseBody × List String
  | none => (store, queue, WebhookResponseBody.ignored "Event not actionable", [])
  | some item =>
    match webhookDispatch dispatchEffect item store queue ps with
    | (store2, queue2, res, trace) =>
      (store2, queue2,
        if res.dispatched then WebhookResponseBody.dispatchedResp res.agent item.id
        else WebhookResponseBody.queuedResp item.id,
        trace)

/-- The server's `POST /webhook/github` route (`webhooks/server.ts`): a PR
merge event short-circuits into `moveCard(providers, itemId, "done")` and a
`cardMoved` response, with no dispatch; otherwise the normal parser and
dispatch path runs. -/
def handleGithubPost (dispatchEffect : AgentName → WorkItem → StoreData → StoreData)
    (ps : List TrackerProvider) (body : GitHubWebhookBody)
    (store : StoreData) (queue : List WorkItem) :
    StoreData × List WorkItem × WebhookResponseBody × List String :=
  match parseGitHubPrMerge body with
  | some pm =>
      (store, queue, WebhookResponseBody.cardMoved pm.itemId pm.status,
        (moveCard pm.itemId pm.status ps).1)
  | none => handleParsedItem dispatchEffect ps store queue (parseGitHubWebhook body)

/-- Claim C8: an actionable work item delivered while no agent is idle is
appended to the end of the durable pending queue (preserving FIFO order),
every agent's record is left unchanged, no tracker move is attempted, and
the HTTP response is `{ dispatched: false, queued: true, item }`. -/
theorem c8_queue_when_pool_full
    (dispatchEffect : AgentName → WorkItem → StoreData → StoreData)
    (ps : List TrackerProvider) (store : StoreData) (queue : List WorkItem)
    (item : WorkItem) (h : getNextFreeAgent store = none) :
    handleParsedItem dispatchEffect ps store queue (some item)
      = (store, queue ++ [item], WebhookResponseBody.queuedResp item.id, []) := by
  simp [handleParsedItem, webhookDispatch, h]

/-- A store with all four agents working. -/
def allBusyStore : StoreData :=
  markBusy
    (markBusy
      (markBusy
        (markBusy defaultData AgentName.ember "1" "T1" "Trello" "b1" "w1" 11 "t1")
        AgentName.flow "2" "T2" "Linear" "b2" "w2" 12 "t2")
      AgentName.tempest "3" "T3" "Jira" "b3" "w3" 13 "t3")
    AgentName.terra "4" "T4" "GitHub" "b4" "w4" 14 "t4"

/-- The queued work item of the C8 scenario. -/
def itemX : WorkItem := { id := "X-1", title := "Urgent fix", source := "Linear" }

theorem c8_queue_when_pool_full_witness :
    handleParsedItem (fun _ _ s => s) [] allBusyStore [] (some itemX)
      = (allBusyStore, [itemX], WebhookResponseBody.queuedResp "X-1", []) := by
  have h := c8_queue_when_pool_full (fun _ _ s => s) [] allBusyStore [] itemX rfl
  simpa using h

theorem parseGitHubPrMerge_inv {b : GitHubWebhookBody} {pm : CardStatusChange}
    (h : parseGitHubPrMerge b = some pm) :
    pm.status = CardStatus.done ∧
    ∃ (pr : GitHubPullRequest) (branch : String),
      b.pullRequest = some pr ∧ pr.headRef = some branch ∧
      extractItemIdFromBranch branch = some pm.itemId := by
  unfold parseGitHubPrMerge at h
  split at h
  · cases h
  · split at h
    · cases h
    · rename_i pr hpr
      split at h
      · cases h
      · split at h
        · cases h
        · rename_i branch hbr
          split at h
          · cases h
          · split at h
            · cases h
            · rename_i itemId hex
              injection h with h2
              subst h2
              exact ⟨rfl, pr, branch, hpr, hbr, hex⟩

/-- Claim C9: a webhook event representing a merged pull request on an agent
branch recovers the work item id from the branch name (the compound id for
branches like `agent/ember/LIN-42-fix-auth-flow`, the leading segment for
bare alphanumeric ids), short-circuits into a "move to status: done" call
and a `cardMoved` response, and never creates a dispatch: the store and the
queue are returned unchanged. -/
theorem c9_pr_merge_moves_done
    (dispatchEffect : AgentName → WorkItem → StoreData → StoreData)
    (ps : List TrackerProvider) (body : GitHubWebhookBody)
    (store : StoreData) (queue : List WorkItem) (pm : CardStatusChange)
    (h : parseGitHubPrMerge body = some pm) :
    pm.status = CardStatus.done ∧
    handleGithubPost dispatchEffect ps body store queue
      = (store, queue, WebhookResponseBody.cardMoved pm.itemId CardStatus.done,
          (moveCard pm.itemId CardStatus.done ps).1) ∧
    (∃ (pr : GitHubPullRequest) (branch : String),
      body.pullRequest = some pr ∧ pr.headRef = some branch ∧
      extractItemIdFromBranch branch = some pm.itemId) ∧
    extractItemIdFromBranch "agent/ember/LIN-42-fix-auth-flow" = some "LIN-42" ∧
    extractItemIdFromBranch "agent/tide/69932610-move-card-feature" = some "69932610" := by
  have hinv := parseGitHubPrMerge_inv h
  refine ⟨hinv.1, ?_, hinv.2, by decide, by decide⟩
  simp only [handleGithubPost, h]
  rw [hinv.1]

/-- The merged-PR payload of the C9 scenario. -/
def mergeBody : GitHubWebhookBody :=
  { action := some "closed"
    pullRequest := some
      { merged := some true
        headRef := some "agent/ember/LIN-42-fix-auth-flow"
        title := some "Fix auth flow" } }

theorem c9_pr_merge_moves_done_witness :
    handleGithubPost (fun _ _ s => s) [] mergeBody defaultData []
      = (defaultData, [], WebhookResponseBody.cardMoved "LIN-42" CardStatus.done, []) := by
  have h := c9_pr_merge_moves_done (fun _ _ s => s) [] mergeBody defaultData []
    { itemId := "LIN-42", status := CardStatus.done } (by decide)
  exact h.2.1
